import Mathlib

/-!
# Verification of the `mvn_version` crate

A shallow embedding of the crate's two version types and their construction,
comparison and equality algorithms, translated from
`src/comparable_version/mod.rs`, `src/comparable_version/item.rs` and
`src/artifact_version.rs`.

Modelling conventions:
* A Rust string is modelled as its byte sequence, `List Nat`.  The crate scans
  byte-by-byte, and every byte it distinguishes (`.`, `-`, `0`-`9`, `a`-`z`) is
  ASCII; bytes ≥ 0x80 are opaque text to the scanner.  `str::to_lowercase` is
  modelled as bytewise ASCII lowercasing (non-ASCII lowercasing can only
  produce bytes the scanner treats as opaque text, exactly like their
  uppercase forms).
* `u32` and `BigUint` payloads are `Nat`; the `u32` parse models the overflow
  bound `< 2^32` explicitly.  `i32` parsing returns `Option Int` with the
  two's-complement range checks of Rust's `str::parse::<i32>`, and the
  `as u32` cast is `· % 2^32`.
* Fallible operations (`unwrap` on the big-integer parse) are modelled with
  `Option`; `none` is the panic path, and totality theorems show it is never
  taken.
-/

/-- Byte list of an ASCII string literal (used for source-code constants such
as `"alpha"` and for concrete test inputs). -/
def strB (s : String) : List Nat := s.data.map Char.toNat

/-- `b'0' ≤ b && b ≤ b'9'` — the scanner's digit test (`mod.rs` line 127). -/
def isDigitByte (b : Nat) : Bool := decide (48 ≤ b ∧ b ≤ 57)

/-- Bytewise ASCII lowercasing, modelling `str::to_lowercase` (`mod.rs`
line 101); see the module comment for why this is faithful here. -/
def asciiLower (b : Nat) : Nat := if 65 ≤ b ∧ b ≤ 90 then b + 32 else b

/-- Numeric value of a decimal digit-byte run (the value produced by Rust's
`str::parse` on an all-digit string when it succeeds). -/
def natOfDigits (l : List Nat) : Nat := l.foldl (fun acc b => acc * 10 + (b - 48)) 0

/-- Model of `str::parse::<u32>`: succeeds on a nonempty all-digit string whose
value fits in 32 bits.  (The crate only calls it on all-digit runs, so the
sign-prefix cases of the real parser are irrelevant; on an all-digit run the
real parser fails exactly on emptiness or overflow.) -/
def parseU32? (l : List Nat) : Option Nat :=
  if l ≠ [] ∧ l.all isDigitByte ∧ natOfDigits l < 2 ^ 32 then some (natOfDigits l) else none

/-- Model of `str::parse::<BigUint>`: succeeds on a nonempty all-digit string,
with no size bound. -/
def parseBig? (l : List Nat) : Option Nat :=
  if l ≠ [] ∧ l.all isDigitByte then some (natOfDigits l) else none

/-- `Item` (`item.rs` lines 7-12): a bounded integer (`u32`), an
arbitrary-precision integer (`BigUint`), or a normalized string. -/
inductive Item where
  | int : Nat → Item
  | bigInt : Nat → Item
  | str : List Nat → Item
deriving DecidableEq

/-- `Item::from_str` (`item.rs` lines 15-28): strip leading zeroes, then apply
the alias table (`a`/`b`/`m` only when the next item starts with a digit;
`ga`/`final`/`release` to the empty string; `cr` to `rc`). -/
def Item.fromStr (s : List Nat) (followedByDigit : Bool) : Item :=
  let s := s.dropWhile (· == 48)
  if followedByDigit = true ∧ s = strB "a" then .str (strB "alpha")
  else if followedByDigit = true ∧ s = strB "b" then .str (strB "beta")
  else if followedByDigit = true ∧ s = strB "m" then .str (strB "milestone")
  else if s = strB "ga" then .str []
  else if s = strB "final" then .str []
  else if s = strB "release" then .str []
  else if s = strB "cr" then .str (strB "rc")
  else .str s

/-- `Item::is_null` (`item.rs` lines 30-36). -/
def Item.isNull : Item → Bool
  | .int 0 => true
  | .str [] => true
  | _ => false

/-- `Item::better_than_nothing` (`item.rs` lines 41-54): how a present item
compares to a logically absent counterpart; the match arms are in source
order. -/
def Item.betterThanNothing : Item → Bool → Ordering
  | .int _, true => .gt
  | .int 0, false => .eq
  | .int _, false => .gt
  | .bigInt _, _ => .gt
  | .str _, true => .lt
  | .str s, false =>
    if s = strB "alpha" ∨ s = strB "beta" ∨ s = strB "milestone" ∨ s = strB "rc"
        ∨ s = strB "snapshot" then .lt
    else if s = [] then .eq
    else .gt

/-- `impl PartialEq for Item` (`item.rs` lines 67-75).  Note the source's
catch-all arm `_ => false` also covers the `(BigInt, BigInt)` case. -/
def Item.beq : Item → Item → Bool
  | .int i, .int j => i == j
  | .str s, .str t => s == t
  | _, _ => false

/-- The qualifier `ranking` table inside `Item::cmp` (`item.rs` lines 87-98). -/
def ranking (s : List Nat) : Nat :=
  if s = strB "alpha" then 0
  else if s = strB "beta" then 1
  else if s = strB "milestone" then 2
  else if s = strB "rc" then 3
  else if s = strB "snapshot" then 4
  else if s = [] then 5
  else if s = strB "sp" then 6
  else 7

/-- Lexicographic byte comparison, modelling Rust's `str::cmp`. -/
def listCmp : List Nat → List Nat → Ordering
  | [], [] => .eq
  | [], _ :: _ => .lt
  | _ :: _, [] => .gt
  | a :: s, b :: t =>
    match compare a b with
    | .eq => listCmp s t
    | o => o

/-- `impl Ord for Item` (`item.rs` lines 85-121). -/
def Item.cmp : Item → Item → Ordering
  | .int i, .int j => compare i j
  | .bigInt i, .bigInt j => compare i j
  | .str s, .str t =>
    if ranking s = 7 ∧ ranking t = 7 then listCmp s t else compare (ranking s) (ranking t)
  | .int _, .bigInt _ => .lt
  | .str _, .int _ => .lt
  | .str _, .bigInt _ => .lt
  | .bigInt _, .int _ => .gt
  | .int _, .str _ => .gt
  | .bigInt _, .str _ => .gt

/-- `Segment` (`item.rs` lines 126-130): an item list plus the
`last_segment` flag. -/
structure Segment where
  items : List Item
  lastSegment : Bool
deriving DecidableEq

/-- `Segment::new` (`item.rs` lines 133-147): strip trailing null items (the
maximal null suffix); the flag starts out `false`. -/
def Segment.new (items : List Item) : Segment :=
  ⟨(items.reverse.dropWhile Item.isNull).reverse, false⟩

/-- `Segment::is_null` (`item.rs` lines 149-151). -/
def Segment.isNull (s : Segment) : Bool :=
  s.items.isEmpty || s.items.all Item.isNull

/-- First non-`Equal` result of comparing each item of a list to absence with
a fixed `more_segments` flag.  With `more_segments = false` this is the loop
of `Segment::better_than_nothing` (`item.rs` lines 158-167); it is also the
tail phase of the `Ord for Segment` loop once one iterator is exhausted
(`item.rs` lines 202-215). -/
def btnLoop (moreSegments : Bool) : List Item → Ordering
  | [] => .eq
  | i :: rest =>
    match i.betterThanNothing moreSegments with
    | .eq => btnLoop moreSegments rest
    | o => o

/-- `Segment::better_than_nothing` (`item.rs` lines 158-167). -/
def Segment.betterThanNothing (s : Segment) : Ordering := btnLoop false s.items

/-- `impl PartialEq for Segment` (`item.rs` lines 183-187): Rust `Vec`
equality over `Item`'s `PartialEq` (the `last_segment` flag is ignored). -/
def itemsEq : List Item → List Item → Bool
  | [], [] => true
  | a :: s, b :: t => a.beq b && itemsEq s t
  | _, _ => false

/-- `impl PartialEq for Segment`, see `itemsEq`. -/
def Segment.beq (a b : Segment) : Bool := itemsEq a.items b.items

/-- The iterator loop of `impl Ord for Segment` (`item.rs` lines 197-219):
present items compare via `Item::cmp`; when one side runs out, each leftover
item is compared to absence with `more_segments = !other.last_segment`
(`Ordering::reverse`d when the leftovers are on the right).  The exhausted
phases are factored into `btnLoop` — its first non-`Equal` result, swapped as
a whole for the right side, equals the source loop's element-wise swapping
because `swap` fixes `Equal`. -/
def itemsCmpLoop (selfLast otherLast : Bool) : List Item → List Item → Ordering
  | [], [] => .eq
  | [], ri :: rs => (btnLoop (!selfLast) (ri :: rs)).swap
  | li :: ls, [] => btnLoop (!otherLast) (li :: ls)
  | li :: ls, ri :: rs =>
    match li.cmp ri with
    | .eq => itemsCmpLoop selfLast otherLast ls rs
    | o => o

/-- `impl Ord for Segment` (`item.rs` lines 197-219). -/
def Segment.cmp (a b : Segment) : Ordering :=
  itemsCmpLoop a.lastSegment b.lastSegment a.items b.items

/-- `ComparableVersion` (`mod.rs` lines 43-47): the original string plus the
parsed segments. -/
structure ComparableVersion where
  orig : List Nat
  segments : List Segment
deriving DecidableEq

/-- The nested `parse_item` of `ComparableVersion::new` (`mod.rs` lines
84-97): strip leading zeroes; a digit run of at most `MAX_U32_LEN = 9`
remaining digits parses as a bounded integer (`unwrap_or(0)` absorbs the
empty-after-stripping case), a longer digit run as a big integer (whose
`unwrap` is the `Option` here), and a non-digit run goes to
`Item::from_str`. -/
def parseItem? (s : List Nat) (isDigit followedByDigit : Bool) : Option Item :=
  let t := s.dropWhile (· == 48)
  if isDigit = true ∧ t.length ≤ 9 then some (.int ((parseU32? t).getD 0))
  else if isDigit = true then (parseBig? t).map .bigInt
  else some (Item.fromStr t followedByDigit)

/-- The scanning loop of `ComparableVersion::new` (`mod.rs` lines 99-157),
with the index pair `start_index..i` carried as the accumulated current run
`cur` (and `i == start_index` becoming `cur = []`): a `.` or `-` finalizes the
current run as an item (an integer zero when the run is empty), `-` also
finalizes the current segment; a digit/letter transition finalizes both the
current run and the current segment; any other byte extends the run.  The
`is_digit` flag is updated exactly where the source updates it. -/
def scan : List Nat → Bool → List Nat → List Item → List Segment → Option (List Segment)
  | [], isDigit, cur, curSeg, segs =>
    -- end of input (`mod.rs` lines 149-157): finalize a nonempty run, then
    -- always push the final segment
    if cur = [] then some (segs ++ [Segment.new curSeg])
    else
      match parseItem? cur isDigit false with
      | none => none
      | some it => some (segs ++ [Segment.new (curSeg ++ [it])])
  | b :: rest, isDigit, cur, curSeg, segs =>
    if b = 46 ∨ b = 45 then
      match (if cur = [] then some (Item.int 0) else parseItem? cur isDigit false) with
      | none => none
      | some it =>
        if b = 45 then scan rest isDigit [] [] (segs ++ [Segment.new (curSeg ++ [it])])
        else scan rest isDigit [] (curSeg ++ [it]) segs
    else
      if cur ≠ [] ∧ isDigitByte b ≠ isDigit then
        match parseItem? cur isDigit (isDigitByte b) with
        | none => none
        | some it =>
          scan rest (isDigitByte b) [b] [] (segs ++ [Segment.new (curSeg ++ [it])])
      else scan rest (isDigitByte b) (cur ++ [b]) curSeg segs

/-- Trailing-null-segment stripping (`mod.rs` lines 160-166): remove the
maximal null suffix of the segment list. -/
def stripTrailingNullSegs (segs : List Segment) : List Segment :=
  (segs.reverse.dropWhile Segment.isNull).reverse

/-- `set_last_segment` on the final segment (`mod.rs` lines 169-171). -/
def setLast : List Segment → List Segment
  | [] => []
  | [s] => [{ s with lastSegment := true }]
  | s :: rest => s :: setLast rest

/-- `ComparableVersion::new` (`mod.rs` lines 83-177), with the big-integer
`unwrap` surfaced as `Option`. -/
def ComparableVersion.new? (bs : List Nat) : Option ComparableVersion :=
  match scan (bs.map asciiLower) false [] [] [] with
  | none => none
  | some segs => some ⟨bs, setLast (stripTrailingNullSegs segs)⟩

/-- Total form of `ComparableVersion::new`; the totality theorem shows the
default is never used. -/
def ComparableVersion.new (bs : List Nat) : ComparableVersion :=
  (ComparableVersion.new? bs).getD ⟨bs, []⟩

/-- The tail phase of the `Ord for ComparableVersion` loop once one iterator
is exhausted: first non-`Equal` `Segment::better_than_nothing` result wins. -/
def segsBTNLoop : List Segment → Ordering
  | [] => .eq
  | l :: ls =>
    match l.betterThanNothing with
    | .eq => segsBTNLoop ls
    | o => o

/-- The iterator loop of `impl Ord for ComparableVersion` (`mod.rs` lines
208-230): segments compare pairwise; a leftover segment is judged by
`Segment::better_than_nothing` (`Ordering::reverse`d when the leftovers are
on the right; swapping the first non-`Equal` result equals the source's
element-wise swapping because `swap` fixes `Equal`). -/
def segsCmpLoop : List Segment → List Segment → Ordering
  | [], [] => .eq
  | [], r :: rs => (segsBTNLoop (r :: rs)).swap
  | l :: ls, [] => segsBTNLoop (l :: ls)
  | l :: ls, r :: rs =>
    match l.cmp r with
    | .eq => segsCmpLoop ls rs
    | o => o

/-- `impl Ord for ComparableVersion` (`mod.rs` lines 208-230). -/
def ComparableVersion.cmp (a b : ComparableVersion) : Ordering :=
  segsCmpLoop a.segments b.segments

/-- Rust `Vec` equality over `Segment`'s `PartialEq`. -/
def segsEq : List Segment → List Segment → Bool
  | [], [] => true
  | a :: s, b :: t => a.beq b && segsEq s t
  | _, _ => false

/-- `impl PartialEq for ComparableVersion` (`mod.rs` lines 194-198): equality
on the segment lists only, never on the original string. -/
def ComparableVersion.beq (a b : ComparableVersion) : Bool :=
  segsEq a.segments b.segments

/-- The data fed to the hasher by `#[derive(Hash)]` on `ComparableVersion`
(`mod.rs` line 43): the derived implementation hashes *every* field, i.e. the
original string and then the segments. -/
def hashData (v : ComparableVersion) : List Nat × List Segment :=
  (v.orig, v.segments)

/-- Model of `str::parse::<i32>`: an optional `+`/`-` sign followed by at
least one ASCII digit, with the value required to fit the `i32` range. -/
def parseI32? (s : List Nat) : Option Int :=
  let sd : Bool × List Nat :=
    match s with
    | 43 :: rest => (false, rest)
    | 45 :: rest => (true, rest)
    | _ => (false, s)
  if sd.2 ≠ [] ∧ sd.2.all isDigitByte then
    let v : Int := (if sd.1 then -1 else 1) * (natOfDigits sd.2 : Int)
    if -(2 ^ 31) ≤ v ∧ v < 2 ^ 31 then some v else none
  else none

/-- Rust's `as u32` cast of an `i32` value (two's complement). -/
def i32ToU32 (v : Int) : Nat := (v % 2 ^ 32).toNat

/-- The `Section` state of `ArtifactVersion::new` (`artifact_version.rs`
lines 56-63). -/
inductive AVSection where
  | major
  | minor
  | incremental
  | buildOrQualifier
  | dottedQualifier
deriving DecidableEq

/-- `ArtifactVersion` (`artifact_version.rs` lines 18-26). -/
structure ArtifactVersion where
  major : Nat
  minor : Nat
  incremental : Nat
  build : Nat
  qualifier : Option (List Nat)
  comparable : ComparableVersion
deriving DecidableEq

/-- A return site of `ArtifactVersion::new`: every `ArtifactVersion { ... }`
expression in the source pairs the five fields with
`ComparableVersion::new(s)` on the full original string. -/
def avRet (s : List Nat) (major minor incremental build : Nat)
    (qualifier : Option (List Nat)) : Option ArtifactVersion :=
  (ComparableVersion.new? s).map fun v =>
    ⟨major, minor, incremental, build, qualifier, v⟩

/-- The `fallback` closure of `ArtifactVersion::new` (`artifact_version.rs`
lines 65-72): everything zero, the whole original string as qualifier. -/
def avFallback (s : List Nat) : Option ArtifactVersion :=
  avRet s 0 0 0 0 (some s)

/-- The variable `last` of `ArtifactVersion::new` (`artifact_version.rs`
line 82): declared once as `0` and never reassigned, so the source's
malformed-boundary tests that compare it with `b'.'` can never fire. -/
def avLast : Nat := 0

/-- The end-of-input `match section` of `ArtifactVersion::new`
(`artifact_version.rs` lines 182-237), with the residue `s[start_index..]`
carried as `cur`. -/
def avEnd (s : List Nat) (sec : AVSection) (cur : List Nat)
    (major minor incremental : Nat) : Option ArtifactVersion :=
  match sec with
  | .major =>
    -- in the Major section `start_index` is still 0, so `cur` is all of `s`
    if cur.head?.getD 95 = 48 then avRet s major minor incremental 0 (some cur)
    else
      match parseI32? cur with
      | some v => avRet s (i32ToU32 v) minor incremental 0 none
      | none => avFallback s
  | .minor =>
    match parseI32? cur with
    | some v => avRet s major (i32ToU32 v) incremental 0 none
    | none => avFallback s
  | .incremental =>
    match parseI32? cur with
    | some v => avRet s major minor (i32ToU32 v) 0 none
    | none => avFallback s
  | .buildOrQualifier =>
    if cur.head?.getD 95 = 48 then avRet s major minor incremental 0 (some cur)
    else
      match parseI32? cur with
      | some v => avRet s major minor incremental (i32ToU32 v) none
      | none => avRet s major minor incremental 0 (some cur)
  | .dottedQualifier =>
    if cur.all isDigitByte then avFallback s
    else avRet s major minor incremental 0 (some cur)

/-- The byte loop of `ArtifactVersion::new` (`artifact_version.rs` lines
84-179), with the slice `s[start_index..i]` carried as the accumulated run
`cur`, the `i == 0` test as the `first` flag, and the full input `s` kept for
the fallback and qualifier return sites.  The branch order mirrors the
source's `if`/`match` order, including the two dead tests on `avLast` and the
unsatisfiable guard `c < b'0' && c > b'9'`. -/
def avLoop (s : List Nat) : List Nat → Bool → AVSection → List Nat → Nat → Nat → Nat →
    Option ArtifactVersion
  | [], _, sec, cur, major, minor, incremental => avEnd s sec cur major minor incremental
  | b :: rest, first, sec, cur, major, minor, incremental =>
    if (first = true ∧ b = 46) ∨ (b = 45 ∧ avLast = 46) ∨
        (sec ≠ .buildOrQualifier ∧ sec ≠ .dottedQualifier ∧ b = 46 ∧ avLast = 46) then
      avFallback s
    else if sec = .major ∧ b = 46 then
      -- in the Major section `start_index` is 0, so the checked byte
      -- `s.bytes().nth(start_index)` is `cur.head?` and the qualifier slice
      -- `s[start_index..]` is `cur ++ b :: rest`
      if cur.head?.getD 95 = 48 then
        avRet s major minor incremental 0 (some (cur ++ 46 :: rest))
      else
        match parseI32? cur with
        | some v => avLoop s rest false .minor [] (i32ToU32 v) minor incremental
        | none => avFallback s
    else if sec = .minor ∧ b = 46 then
      match parseI32? cur with
      | some v => avLoop s rest false .incremental [] major (i32ToU32 v) incremental
      | none => avFallback s
    else if sec = .incremental ∧ b = 46 then
      match parseI32? cur with
      | some v => avLoop s rest false .dottedQualifier [] major minor (i32ToU32 v)
      | none => avFallback s
    else if (sec = .major ∨ sec = .minor ∨ sec = .incremental) ∧ b = 45 then
      if sec = .major ∧ cur.head?.getD 95 = 48 then
        avRet s major minor incremental 0 (some (cur ++ 45 :: rest))
      else
        match parseI32? cur with
        | some v =>
          match sec with
          | .major => avLoop s rest false .buildOrQualifier [] (i32ToU32 v) minor incremental
          | .minor => avLoop s rest false .buildOrQualifier [] major (i32ToU32 v) incremental
          | _ => avLoop s rest false .buildOrQualifier [] major minor (i32ToU32 v)
        | none => avFallback s
    else if (sec = .major ∨ sec = .minor ∨ sec = .incremental) ∧ b < 48 ∧ 57 < b then
      avFallback s
    else if sec = .dottedQualifier ∧ b = 45 then
      avFallback s
    else
      avLoop s rest false sec (cur ++ [b]) major minor incremental

/-- `ArtifactVersion::new` (`artifact_version.rs` lines 54-247), with the
embedded `ComparableVersion::new`'s fallibility surfaced as `Option`. -/
def ArtifactVersion.new? (s : List Nat) : Option ArtifactVersion :=
  avLoop s s true .major [] 0 0 0

/-- Total form of `ArtifactVersion::new`; the totality theorem shows the
default is never used. -/
def ArtifactVersion.new (s : List Nat) : ArtifactVersion :=
  (ArtifactVersion.new? s).getD ⟨0, 0, 0, 0, some s, ComparableVersion.new s⟩

/-- `impl PartialEq for ArtifactVersion` (`artifact_version.rs` lines
296-300): delegates to the embedded `ComparableVersion`. -/
def ArtifactVersion.beq (a b : ArtifactVersion) : Bool :=
  a.comparable.beq b.comparable

/-- `impl Ord for ArtifactVersion` (`artifact_version.rs` lines 308-312):
delegates to the embedded `ComparableVersion`. -/
def ArtifactVersion.cmp (a b : ArtifactVersion) : Ordering :=
  a.comparable.cmp b.comparable

/-! ## Helper lemmas -/

theorem all_dropWhile (p q : Nat → Bool) (l : List Nat) (h : l.all p = true) :
    (l.dropWhile q).all p = true := by
  induction l with
  | nil => simp
  | cons a t ih =>
    simp only [List.all_cons, Bool.and_eq_true] at h
    by_cases hq : q a = true
    · simp only [List.dropWhile_cons, hq, if_true]
      exact ih h.2
    · simp [List.dropWhile_cons, hq, h.1, h.2]

theorem natOfDigits_lt_aux (l : List Nat) (h : l.all isDigitByte = true) :
    ∀ acc, l.foldl (fun a b => a * 10 + (b - 48)) acc < (acc + 1) * 10 ^ l.length := by
  induction l with
  | nil => intro acc; simp
  | cons b t ih =>
    intro acc
    simp only [List.all_cons, Bool.and_eq_true] at h
    have hb : b ≤ 57 := (of_decide_eq_true h.1).2
    have step := ih h.2 (acc * 10 + (b - 48))
    have hstep : acc * 10 + (b - 48) + 1 ≤ (acc + 1) * 10 := by omega
    calc (b :: t).foldl (fun a b => a * 10 + (b - 48)) acc
        = t.foldl (fun a b => a * 10 + (b - 48)) (acc * 10 + (b - 48)) := by
          simp [List.foldl_cons]
      _ < (acc * 10 + (b - 48) + 1) * 10 ^ t.length := step
      _ ≤ (acc + 1) * 10 * 10 ^ t.length :=
          Nat.mul_le_mul_right _ hstep
      _ = (acc + 1) * 10 ^ (b :: t).length := by
          rw [List.length_cons, pow_succ]; ring

theorem natOfDigits_lt (l : List Nat) (h : l.all isDigitByte = true) :
    natOfDigits l < 10 ^ l.length := by
  have := natOfDigits_lt_aux l h 0
  simpa [natOfDigits] using this

theorem parseU32?_eq_some (l : List Nat) (hne : l ≠ []) (hall : l.all isDigitByte = true)
    (hlen : l.length ≤ 9) : parseU32? l = some (natOfDigits l) := by
  have hlt : natOfDigits l < 2 ^ 32 := by
    have h1 : natOfDigits l < 10 ^ l.length := natOfDigits_lt l hall
    have h2 : (10 : Nat) ^ l.length ≤ 10 ^ 9 := Nat.pow_le_pow_right (by norm_num) hlen
    have : (10 : Nat) ^ 9 < 2 ^ 32 := by norm_num
    omega
  have hlt2 : natOfDigits l < 4294967296 := by omega
  simp [parseU32?, hne, hall, hlt, hlt2]

theorem parseItem?_isSome (s : List Nat) (isDigit fd : Bool)
    (h : isDigit = true → s.all isDigitByte = true) :
    (parseItem? s isDigit fd).isSome = true := by
  by_cases hd : isDigit = true
  · by_cases hl : (s.dropWhile (· == 48)).length ≤ 9
    · simp [parseItem?, hd, hl]
    · have hne : s.dropWhile (· == 48) ≠ [] := by
        intro he
        rw [he] at hl
        simp at hl
      have hall : (s.dropWhile (· == 48)).all isDigitByte = true :=
        all_dropWhile _ _ _ (h hd)
      simp [parseItem?, hd, hl, parseBig?, hne, hall]
  · simp [parseItem?, hd]

theorem scan_isSome : ∀ (l : List Nat) (isDigit : Bool) (cur : List Nat)
    (curSeg : List Item) (segs : List Segment),
    (isDigit = true → cur.all isDigitByte = true) →
    (scan l isDigit cur curSeg segs).isSome = true := by
  intro l
  induction l with
  | nil =>
    intro isDigit cur curSeg segs h
    rw [scan]
    by_cases hc : cur = []
    · simp [hc]
    · have hs := parseItem?_isSome cur isDigit false h
      cases hp : parseItem? cur isDigit false with
      | none => rw [hp] at hs; simp at hs
      | some it => simp [hc, hp]
  | cons b rest ih =>
    intro isDigit cur curSeg segs h
    rw [scan]
    by_cases hdelim : b = 46 ∨ b = 45
    · simp only [if_pos hdelim]
      by_cases hc : cur = []
      · simp only [hc, if_pos rfl]
        by_cases hb : b = 45
        · simpa [hb] using ih isDigit [] [] _ (fun _ => rfl)
        · simpa [hb] using ih isDigit [] _ segs (fun _ => rfl)
      · have hs := parseItem?_isSome cur isDigit false h
        cases hp : parseItem? cur isDigit false with
        | none => rw [hp] at hs; simp at hs
        | some it =>
          simp only [hc, if_neg hc, hp]
          by_cases hb : b = 45
          · simpa [hb] using ih isDigit [] [] _ (fun _ => rfl)
          · simpa [hb] using ih isDigit [] _ segs (fun _ => rfl)
    · simp only [if_neg hdelim]
      by_cases htr : cur ≠ [] ∧ isDigitByte b ≠ isDigit
      · have hs := parseItem?_isSome cur isDigit (isDigitByte b) h
        cases hp : parseItem? cur isDigit (isDigitByte b) with
        | none => rw [hp] at hs; simp at hs
        | some it =>
          simp only [if_pos htr, hp]
          refine ih (isDigitByte b) [b] [] _ ?_
          intro hbd
          simp [List.all_cons, hbd]
      · simp only [if_neg htr]
        refine ih (isDigitByte b) (cur ++ [b]) curSeg segs ?_
        intro hbd
        rcases not_and_or.mp htr with hc | hflag
        · push_neg at hc
          simp [hc, List.all_cons, hbd]
        · push_neg at hflag
          rw [List.all_append]
          have hcur := h (hflag ▸ hbd)
          simp [hcur, List.all_cons, hbd]

theorem cvNew?_eq (bs : List Nat) :
    ComparableVersion.new? bs = some (ComparableVersion.new bs) := by
  have hs := scan_isSome (bs.map asciiLower) false [] [] [] (fun _ => rfl)
  unfold ComparableVersion.new ComparableVersion.new?
  cases hp : scan (bs.map asciiLower) false [] [] [] with
  | none => rw [hp] at hs; simp at hs
  | some segs => simp

/-- Every value `ArtifactVersion::new` can return: constructed (no panic) and
carrying `ComparableVersion::new` of the full original string. -/
def AVGood (s : List Nat) (o : Option ArtifactVersion) : Prop :=
  ∃ av, o = some av ∧ av.comparable = ComparableVersion.new s

theorem avRet_good (s : List Nat) (a b c d : Nat) (q : Option (List Nat)) :
    AVGood s (avRet s a b c d q) := by
  refine ⟨⟨a, b, c, d, q, ComparableVersion.new s⟩, ?_, rfl⟩
  rw [avRet, cvNew?_eq]
  rfl

theorem avFallback_good (s : List Nat) : AVGood s (avFallback s) := by
  rw [avFallback]
  exact avRet_good s 0 0 0 0 (some s)

theorem avEnd_good (s : List Nat) (sec : AVSection) (cur : List Nat)
    (a b c : Nat) : AVGood s (avEnd s sec cur a b c) := by
  cases sec <;> rw [avEnd] <;>
    repeat first
      | apply avRet_good
      | apply avFallback_good
      | split

theorem avLoop_good (s : List Nat) : ∀ (l : List Nat) (first : Bool)
    (sec : AVSection) (cur : List Nat) (a b c : Nat),
    AVGood s (avLoop s l first sec cur a b c) := by
  intro l
  induction l with
  | nil =>
    intro first sec cur a b c
    rw [avLoop]
    apply avEnd_good
  | cons x rest ih =>
    intro first sec cur a b c
    rw [avLoop]
    repeat first
      | apply avRet_good
      | apply avFallback_good
      | apply ih
      | split

theorem avNew?_eq (s : List Nat) :
    ArtifactVersion.new? s = some (ArtifactVersion.new s) := by
  obtain ⟨av, h, _⟩ := avLoop_good s s true .major [] 0 0 0
  rw [ArtifactVersion.new, ArtifactVersion.new?] at *
  rw [h]
  rfl

theorem avNew_comparable (s : List Nat) :
    (ArtifactVersion.new s).comparable = ComparableVersion.new s := by
  obtain ⟨av, h, hc⟩ := avLoop_good s s true .major [] 0 0 0
  rw [ArtifactVersion.new, ArtifactVersion.new?, h]
  exact hc

/-! ## Claim theorems -/

/-- C1: construction is total.  For every input byte string, both
`ComparableVersion::new` and `ArtifactVersion::new` return a value: the
`Option`-surfaced panic paths (the big-integer `unwrap` inside `parse_item`,
reached through every slice of the scanner) are never taken.  (The digit-run
routing that protects the bounded-integer parse from overflow is stated
separately in the C8 theorem.) -/
theorem c1_construction_total (bs : List Nat) :
    (ComparableVersion.new? bs).isSome = true ∧ (ArtifactVersion.new? bs).isSome = true := by
  constructor
  · rw [cvNew?_eq]; rfl
  · rw [avNew?_eq]; rfl

/-- C2 (bug evaluation): two arbitrary-precision integer items of equal value
are *not* equal under the source's `PartialEq` (its catch-all `_ => false`
arm swallows the `(BigInt, BigInt)` case) even though `Ord::cmp` returns
`Equal`; consequently `ComparableVersion::new("10000000000")` is unequal to
itself while comparing `Equal` to itself, so reflexivity — and the claimed
"exactly one of `a<b, a=b, a>b`" and "`cmp(a,b)=Equal` iff `a=b`" — fail. -/
theorem c2_bigint_eq_bug :
    Item.beq (Item.bigInt 10000000000) (Item.bigInt 10000000000) = false
  ∧ Item.cmp (Item.bigInt 10000000000) (Item.bigInt 10000000000) = .eq
  ∧ ComparableVersion.beq (ComparableVersion.new (strB "10000000000"))
      (ComparableVersion.new (strB "10000000000")) = false
  ∧ ComparableVersion.cmp (ComparableVersion.new (strB "10000000000"))
      (ComparableVersion.new (strB "10000000000")) = .eq := by
  refine ⟨rfl, by decide, by decide, by decide⟩

/-- The five "below-default" qualifier strings of the `better_than_nothing`
match arm (`item.rs` line 49). -/
def belowDefaultQualifiers : List (List Nat) :=
  [strB "alpha", strB "beta", strB "milestone", strB "rc", strB "snapshot"]

/-- C3: `Item::better_than_nothing(more_segments)` returns `Equal` for a zero
bounded integer unless `more_segments` is true (then `Greater`); `Greater`
for every nonzero bounded integer and every arbitrary-precision integer;
and for a string item `Equal` if empty, `Less` if one of
`alpha`/`beta`/`milestone`/`rc`/`snapshot`, `Greater` otherwise — except that
when `more_segments` is true every string item is `Less`. -/
theorem c3_better_than_nothing (n big : Nat) (s : List Nat) (ms : Bool) :
    Item.betterThanNothing (.int 0) ms = (if ms then .gt else .eq)
  ∧ (n ≠ 0 → Item.betterThanNothing (.int n) ms = .gt)
  ∧ Item.betterThanNothing (.bigInt big) ms = .gt
  ∧ Item.betterThanNothing (.str s) true = .lt
  ∧ Item.betterThanNothing (.str []) false = .eq
  ∧ (s ∈ belowDefaultQualifiers → Item.betterThanNothing (.str s) false = .lt)
  ∧ (s ∉ belowDefaultQualifiers → s ≠ [] → Item.betterThanNothing (.str s) false = .gt) := by
  refine ⟨?_, ?_, ?_, ?_, ?_, ?_, ?_⟩
  · cases ms <;> rfl
  · intro hn
    cases ms <;> cases n with
      | zero => exact absurd rfl hn
      | succ m => rfl
  · cases ms <;> rfl
  · rfl
  · decide
  · intro hmem
    have : s = strB "alpha" ∨ s = strB "beta" ∨ s = strB "milestone" ∨ s = strB "rc"
        ∨ s = strB "snapshot" := by
      simpa [belowDefaultQualifiers] using hmem
    rw [Item.betterThanNothing, if_pos this]
  · intro hmem hne
    have hnot : ¬(s = strB "alpha" ∨ s = strB "beta" ∨ s = strB "milestone" ∨ s = strB "rc"
        ∨ s = strB "snapshot") := by
      simpa [belowDefaultQualifiers] using hmem
    rw [Item.betterThanNothing, if_neg hnot, if_neg hne]

/-- C3 witness: the theorem applied at concrete items. -/
theorem c3_witness :
    Item.betterThanNothing (.int 7) false = .gt
  ∧ Item.betterThanNothing (.str (strB "rc")) false = .lt
  ∧ Item.betterThanNothing (.str (strB "xyz")) false = .gt :=
  ⟨(c3_better_than_nothing 7 0 (strB "rc") false).2.1 (by decide),
   (c3_better_than_nothing 7 0 (strB "rc") false).2.2.2.2.2.1 (by decide),
   (c3_better_than_nothing 7 0 (strB "xyz") false).2.2.2.2.2.2 (by decide) (by decide)⟩

/-- C5: equality and ordering of `ArtifactVersion` delegate to the embedded
`ComparableVersion` — on arbitrary values they are exactly the comparison of
the `comparable` fields (so the four numeric fields and the qualifier never
influence them), and on constructed values they agree with comparing the
`ComparableVersion`s built from the same strings. -/
theorem c5_delegation (s t : List Nat) (a b : ArtifactVersion) :
    ArtifactVersion.beq a b = ComparableVersion.beq a.comparable b.comparable
  ∧ ArtifactVersion.cmp a b = ComparableVersion.cmp a.comparable b.comparable
  ∧ ArtifactVersion.beq (ArtifactVersion.new s) (ArtifactVersion.new t)
      = ComparableVersion.beq (ComparableVersion.new s) (ComparableVersion.new t)
  ∧ ArtifactVersion.cmp (ArtifactVersion.new s) (ArtifactVersion.new t)
      = ComparableVersion.cmp (ComparableVersion.new s) (ComparableVersion.new t) := by
  refine ⟨rfl, rfl, ?_, ?_⟩
  · rw [ArtifactVersion.beq, avNew_comparable, avNew_comparable]
  · rw [ArtifactVersion.cmp, avNew_comparable, avNew_comparable]

/-- C9 (bug evaluation): `"1"` and `"1.0"` construct equal values (equality
looks only at the segments), but the data fed to the derived `Hash`
implementation — which hashes the `orig` field as well as the segments — is
different, so equal values are not hashed identically. -/
theorem c9_hash_eq_bug :
    ComparableVersion.beq (ComparableVersion.new (strB "1"))
      (ComparableVersion.new (strB "1.0")) = true
  ∧ (ComparableVersion.new (strB "1")).segments
      = (ComparableVersion.new (strB "1.0")).segments
  ∧ hashData (ComparableVersion.new (strB "1"))
      ≠ hashData (ComparableVersion.new (strB "1.0")) := by
  refine ⟨by decide, by decide, by decide⟩

/-- C10: `ArtifactVersion::new("")` yields zero for all four numeric fields
and `Some("")` — the empty string, not `None` — as the qualifier. -/
theorem c10_empty_input :
    (ArtifactVersion.new (strB "")).major = 0
  ∧ (ArtifactVersion.new (strB "")).minor = 0
  ∧ (ArtifactVersion.new (strB "")).incremental = 0
  ∧ (ArtifactVersion.new (strB "")).build = 0
  ∧ (ArtifactVersion.new (strB "")).qualifier = some (strB "") := by
  refine ⟨by decide, by decide, by decide, by decide, by decide⟩

/-- C4 counterexample: `"1a"` contains no `-` at all, yet the scanner
produces *two* segments — the digit→letter transition opened a new segment,
not merely a new item inside the same segment. -/
theorem c4_counterexample :
    (ComparableVersion.new (strB "1a")).segments =
      [Segment.mk [Item.int 1] false, Segment.mk [Item.str (strB "a")] true]
  ∧ (ComparableVersion.new (strB "1a")).segments.length = 2 := by
  refine ⟨by decide, by decide⟩

/-- C4 (amended): a new item boundary occurs at a `.` or `-` delimiter or at
a digit/letter transition, and a new *segment* boundary occurs both at `-`
and at a digit/letter transition: `.` finalizes the current run into the
current segment, while `-` and a transition finalize the run *and* push the
current segment. -/
theorem c4_boundaries (b : Nat) (rest cur : List Nat) (isDigit : Bool)
    (curSeg : List Item) (segs : List Segment) (hc : cur ≠ []) :
    (b = 46 → scan (b :: rest) isDigit cur curSeg segs =
      match parseItem? cur isDigit false with
      | none => none
      | some it => scan rest isDigit [] (curSeg ++ [it]) segs)
  ∧ (b = 45 → scan (b :: rest) isDigit cur curSeg segs =
      match parseItem? cur isDigit false with
      | none => none
      | some it => scan rest isDigit [] [] (segs ++ [Segment.new (curSeg ++ [it])]))
  ∧ (¬(b = 46 ∨ b = 45) → isDigitByte b ≠ isDigit →
      scan (b :: rest) isDigit cur curSeg segs =
      match parseItem? cur isDigit (isDigitByte b) with
      | none => none
      | some it => scan rest (isDigitByte b) [b] [] (segs ++ [Segment.new (curSeg ++ [it])])) := by
  refine ⟨?_, ?_, ?_⟩
  · intro hb
    subst hb
    rw [scan, if_pos (Or.inl rfl), if_neg hc]
    cases parseItem? cur isDigit false with
    | none => rfl
    | some it => rfl
  · intro hb
    subst hb
    rw [scan, if_pos (Or.inr rfl), if_neg hc]
    cases parseItem? cur isDigit false with
    | none => rfl
    | some it => rfl
  · intro hnd htr
    rw [scan, if_neg hnd, if_pos ⟨hc, htr⟩]

/-- C4 witness: the amended theorem applied at the digit→letter transition
of `"1a"`. -/
theorem c4_witness :
    scan (97 :: []) true [49] [] [] =
      match parseItem? [49] true (isDigitByte 97) with
      | none => none
      | some it => scan [] (isDigitByte 97) [97] [] ([] ++ [Segment.new ([] ++ [it])]) :=
  (c4_boundaries 97 [] [49] true [] [] (by decide)).2.2 (by decide) (by decide)

/-- C6 counterexample: a leading zero at the start of a *Minor* component
(`"1.02"`) or just before a dash (`"1.02-3"`) does **not** fall back to a
qualifier — the component parses numerically (Rust's `i32` parse accepts
leading zeroes) and the scan continues. -/
theorem c6_counterexample :
    ArtifactVersion.new (strB "1.02") =
      ⟨1, 2, 0, 0, none, ComparableVersion.new (strB "1.02")⟩
  ∧ ArtifactVersion.new (strB "1.02-3") =
      ⟨1, 2, 0, 3, none, ComparableVersion.new (strB "1.02-3")⟩ := by
  refine ⟨by decide, by decide⟩

/-- C6 (amended): the leading-zero fallback exists only in the Major zone
(where `start_index` is still 0, so it is a leading zero of the whole
string): it fires at the first `.`, at a `-` while still in Major, and at end
of input in Major, making the remainder (the whole string) the qualifier with
the accumulated field values.  In the Minor and Incremental zones there is no
such check: any component the `i32` parser accepts — leading zeroes included
— is consumed numerically. -/
theorem c6_leading_zero (s rest cur : List Nat) (a b c : Nat) :
    (cur.head?.getD 95 = 48 →
      avLoop s (46 :: rest) false .major cur a b c =
        some ⟨a, b, c, 0, some (cur ++ 46 :: rest), ComparableVersion.new s⟩)
  ∧ (cur.head?.getD 95 = 48 →
      avLoop s (45 :: rest) false .major cur a b c =
        some ⟨a, b, c, 0, some (cur ++ 45 :: rest), ComparableVersion.new s⟩)
  ∧ (cur.head?.getD 95 = 48 →
      avEnd s .major cur a b c =
        some ⟨a, b, c, 0, some cur, ComparableVersion.new s⟩)
  ∧ (∀ v, parseI32? cur = some v →
      avLoop s (46 :: rest) false .minor cur a b c =
        avLoop s rest false .incremental [] a (i32ToU32 v) c)
  ∧ (∀ v, parseI32? cur = some v →
      avLoop s (46 :: rest) false .incremental cur a b c =
        avLoop s rest false .dottedQualifier [] a b (i32ToU32 v))
  ∧ parseI32? (strB "02") = some 2 := by
  refine ⟨?_, ?_, ?_, ?_, ?_, by decide⟩
  · intro h0
    rw [avLoop, if_neg (by decide), if_pos (by decide), if_pos h0, avRet, cvNew?_eq]
    rfl
  · intro h0
    rw [avLoop, if_neg (by decide), if_neg (by decide), if_neg (by decide),
      if_neg (by decide), if_pos (by decide), if_pos ⟨rfl, h0⟩, avRet, cvNew?_eq]
    rfl
  · intro h0
    rw [avEnd]
    rw [if_pos h0, avRet, cvNew?_eq]
    rfl
  · intro v hv
    rw [avLoop, if_neg (by decide), if_neg (by decide), if_pos (by decide), hv]
  · intro v hv
    rw [avLoop, if_neg (by decide), if_neg (by decide), if_neg (by decide),
      if_pos (by decide), hv]

/-- C6 witness: the amended theorem applied at the Major-zone leading zero of
`"0.1"` and at the Minor component `"02"` of `"1.02.3"`. -/
theorem c6_witness :
    avLoop (strB "0.1") (46 :: strB "1") false .major (strB "0") 0 0 0 =
      some ⟨0, 0, 0, 0, some (strB "0" ++ 46 :: strB "1"), ComparableVersion.new (strB "0.1")⟩
  ∧ avLoop (strB "1.02.3") (46 :: strB "3") false .minor (strB "02") 1 0 0 =
      avLoop (strB "1.02.3") (strB "3") false .incremental [] 1 (i32ToU32 2) 0 :=
  ⟨(c6_leading_zero (strB "0.1") (strB "1") (strB "0") 0 0 0).1 (by decide),
   (c6_leading_zero (strB "1.02.3") (strB "3") (strB "02") 1 0 0).2.2.2.1 2 (by decide)⟩

/-- C7: reaching end of input in the BuildOrQualifier zone: trailing text
starting with `'0'` becomes the qualifier; otherwise it is parsed as a
signed-32-bit-range integer, success setting `build` (cast `as u32`) and
failure — including overflow, as for `"1.2.3-200705301630"` — setting the
qualifier to that text verbatim with `build` left 0. -/
theorem c7_build_or_qualifier (s cur : List Nat) (a b c : Nat) :
    (cur.head?.getD 95 = 48 →
      avEnd s .buildOrQualifier cur a b c =
        some ⟨a, b, c, 0, some cur, ComparableVersion.new s⟩)
  ∧ (∀ n, parseI32? cur = some n → cur.head?.getD 95 ≠ 48 →
      avEnd s .buildOrQualifier cur a b c =
        some ⟨a, b, c, i32ToU32 n, none, ComparableVersion.new s⟩)
  ∧ (parseI32? cur = none → cur.head?.getD 95 ≠ 48 →
      avEnd s .buildOrQualifier cur a b c =
        some ⟨a, b, c, 0, some cur, ComparableVersion.new s⟩)
  ∧ ArtifactVersion.new (strB "1.2.3-200705301630") =
      ⟨1, 2, 3, 0, some (strB "200705301630"),
        ComparableVersion.new (strB "1.2.3-200705301630")⟩ := by
  refine ⟨?_, ?_, ?_, by decide⟩
  · intro h0
    rw [avEnd, if_pos h0, avRet, cvNew?_eq]
    rfl
  · intro n hn h0
    rw [avEnd, if_neg h0, hn]
    show avRet s a b c (i32ToU32 n) none = _
    rw [avRet, cvNew?_eq]
    rfl
  · intro hn h0
    rw [avEnd, if_neg h0, hn, avRet, cvNew?_eq]
    rfl

/-- C7 witness: the theorem applied at the three kinds of trailing text. -/
theorem c7_witness :
    avEnd (strB "2.0-01") .buildOrQualifier (strB "01") 2 0 0 =
      some ⟨2, 0, 0, 0, some (strB "01"), ComparableVersion.new (strB "2.0-01")⟩
  ∧ avEnd (strB "1.2.3-1") .buildOrQualifier (strB "1") 1 2 3 =
      some ⟨1, 2, 3, i32ToU32 1, none, ComparableVersion.new (strB "1.2.3-1")⟩
  ∧ avEnd (strB "1.2.3-alpha") .buildOrQualifier (strB "alpha") 1 2 3 =
      some ⟨1, 2, 3, 0, some (strB "alpha"), ComparableVersion.new (strB "1.2.3-alpha")⟩ :=
  ⟨(c7_build_or_qualifier (strB "2.0-01") (strB "01") 2 0 0).1 (by decide),
   (c7_build_or_qualifier (strB "1.2.3-1") (strB "1") 1 2 3).2.1 1 (by decide) (by decide),
   (c7_build_or_qualifier (strB "1.2.3-alpha") (strB "alpha") 1 2 3).2.2.1 (by decide) (by decide)⟩

/-- C8: a digit run whose length after stripping leading zeroes exceeds 9
parses as an arbitrary-precision integer item carrying its exact value; at
most 9 digits parses as a bounded integer item with the same exact value;
big-integer items order by exact integer comparison; and the two concrete
big-integer orderings of the claim hold, with no wrap-around. -/
theorem c8_bigint_threshold (s : List Nat) (h : s.all isDigitByte = true) (i j : Nat) :
    (9 < (s.dropWhile (· == 48)).length →
      parseItem? s true false = some (Item.bigInt (natOfDigits (s.dropWhile (· == 48)))))
  ∧ ((s.dropWhile (· == 48)).length ≤ 9 →
      parseItem? s true false = some (Item.int (natOfDigits (s.dropWhile (· == 48)))))
  ∧ Item.cmp (Item.bigInt i) (Item.bigInt j) = compare i j
  ∧ ComparableVersion.cmp (ComparableVersion.new (strB "1.2.3-10000000000"))
      (ComparableVersion.new (strB "1.2.3-10000000001")) = .lt
  ∧ ComparableVersion.cmp (ComparableVersion.new (strB "1.2.3-1"))
      (ComparableVersion.new (strB "1.2.3-10000000001")) = .lt := by
  have hall := all_dropWhile isDigitByte (· == 48) s h
  refine ⟨?_, ?_, rfl, by decide, by decide⟩
  · intro hlen
    have hne : s.dropWhile (· == 48) ≠ [] := by
      intro he
      rw [he] at hlen
      simp at hlen
    have hnot : ¬(s.dropWhile (· == 48)).length ≤ 9 := by omega
    simp only [parseItem?, true_and, hnot, if_false, if_true, parseBig?, hne, hall,
      ne_eq, not_false_iff, and_self]
    rfl
  · intro hlen
    by_cases hne : s.dropWhile (· == 48) = []
    · simp only [parseItem?, true_and, hlen, if_true, hne]
      rfl
    · simp only [parseItem?, true_and, hlen, if_true,
        parseU32?_eq_some (s.dropWhile (· == 48)) hne hall hlen, Option.getD_some]

/-- C8 witness: the theorem applied to an 11-digit run and a 3-digit run. -/
theorem c8_witness :
    parseItem? (strB "10000000000") true false = some (Item.bigInt 10000000000)
  ∧ parseItem? (strB "123") true false = some (Item.int 123) := by
  constructor
  · have h1 := (c8_bigint_threshold (strB "10000000000") (by decide) 0 0).1 (by decide)
    have h2 : natOfDigits ((strB "10000000000").dropWhile (· == 48)) = 10000000000 := by decide
    rw [h2] at h1
    exact h1
  · have h1 := (c8_bigint_threshold (strB "123") (by decide) 0 0).2.1 (by decide)
    have h2 : natOfDigits ((strB "123").dropWhile (· == 48)) = 123 := by decide
    rw [h2] at h1
    exact h1
